import Mathlib

/-!
# Verification of the lsh-core firmware engine

A shallow embedding of the core of the `lsh-core` home-automation firmware
(actuators, clickable input FSM, network-click coordination, command
dispatch, serialization), together with theorems settling the spec claims.

Machine integers (`uint32_t` timestamps, `uint8_t` counters) are modelled as
`Nat` with explicit wrap-around arithmetic (`% 2^32`, `% 2^8`) where the
source relies on it.  Stateful C++ methods become functions returning the
updated structure.  The global registries and the pending network-click maps
become an explicit `SysState` record threaded through the functions.
-/

namespace LshCore

/-- Wrap-safe `uint32_t` subtraction `a - b` as performed by the source on
`timeKeeper::getTime()` values (all timing comparisons use this). -/
def sub32 (a b : Nat) : Nat := (a % 2 ^ 32 + (2 ^ 32 - b % 2 ^ 32)) % 2 ^ 32

theorem sub32_eq_sub (a b : Nat) (hba : b ≤ a) (ha : a < 2 ^ 32) :
    sub32 a b = a - b := by
  have hb : b < 2 ^ 32 := lt_of_le_of_lt hba ha
  unfold sub32
  rw [Nat.mod_eq_of_lt ha, Nat.mod_eq_of_lt hb]
  have h1 : a + (2 ^ 32 - b) = (a - b) + 2 ^ 32 := by omega
  rw [h1, Nat.add_mod_right, Nat.mod_eq_of_lt (by omega)]

/-! ## Timing constants (`util/constants/timing.hpp`, default configuration) -/

/-- `ACTUATOR_DEBOUNCE_TIME_MS` (min time between actuator switches). -/
def ACTUATOR_DEBOUNCE_TIME_MS : Nat := 100
/-- `LCNB_TIMEOUT_MS` (network-click timeout). -/
def LCNB_TIMEOUT_MS : Nat := 1000

/-! ## Actuator (`peripherals/output/actuator.hpp` / `actuator.cpp`) -/

/-- The mutable state of one `Actuator` (relay).  The hardware output pin is
modelled by the `pinLevel` field, written by `digitalWrite`. -/
structure Actuator where
  id : Nat
  defaultState : Bool
  actualState : Bool
  pinLevel : Bool
  lastTimeSwitched : Nat
  isProtected : Bool
  hasAutoOffTimer : Bool
  autoOffTimer_ms : Nat
  deriving Repr, DecidableEq

/-- `Actuator::setState`: applies `state` unless it equals the stored state or
the switch debounce window is still open. Returns the updated actuator and
whether the switch was performed. -/
def Actuator.setState (a : Actuator) (now : Nat) (state : Bool) : Actuator × Bool :=
  if a.actualState = state then
    (a, false)
  else if ACTUATOR_DEBOUNCE_TIME_MS ≠ 0 ∧ sub32 now a.lastTimeSwitched < ACTUATOR_DEBOUNCE_TIME_MS then
    (a, false)
  else
    ({ a with pinLevel := state, actualState := state, lastTimeSwitched := now }, true)

/-- `Actuator::toggleState`. -/
def Actuator.toggleState (a : Actuator) (now : Nat) : Actuator × Bool :=
  a.setState now (!a.actualState)

/-- `Actuator::checkAutoOffTimer`: switches the actuator off once its auto-off
timer has elapsed. -/
def Actuator.checkAutoOffTimer (a : Actuator) (now : Nat) : Actuator × Bool :=
  if a.actualState ∧ a.hasAutoOffTimer then
    if a.autoOffTimer_ms ≤ sub32 now a.lastTimeSwitched then
      a.setState now false
    else
      (a, false)
  else
    (a, false)

/-- **C4.** `Actuator::setState(target)` returns `false` and changes nothing
(state, hardware pin, timestamp) when the target equals the current state or
when `now − last_switch_time < switch_debounce_ms`; otherwise it writes the
hardware output, updates the state and `last_switch_time` to `now`, and
returns `true`. -/
theorem setState_spec (a : Actuator) (now : Nat) (target : Bool) :
    (a.actualState = target → a.setState now target = (a, false))
    ∧ (a.actualState ≠ target → sub32 now a.lastTimeSwitched < ACTUATOR_DEBOUNCE_TIME_MS →
        a.setState now target = (a, false))
    ∧ (a.actualState ≠ target → ACTUATOR_DEBOUNCE_TIME_MS ≤ sub32 now a.lastTimeSwitched →
        a.setState now target =
          ({ a with pinLevel := target, actualState := target, lastTimeSwitched := now }, true)) := by
  refine ⟨fun h => ?_, fun h hd => ?_, fun h hd => ?_⟩
  · simp [Actuator.setState, h]
  · simp [Actuator.setState, h, ACTUATOR_DEBOUNCE_TIME_MS]
    exact hd
  · simp [Actuator.setState, h, Nat.not_lt.mpr hd]

/-- A concrete actuator, currently on, last switched at time 0. -/
def actOnAt0 : Actuator :=
  { id := 1, defaultState := false, actualState := true, pinLevel := true,
    lastTimeSwitched := 0, isProtected := false, hasAutoOffTimer := false,
    autoOffTimer_ms := 0 }

/-- Witness for `setState_spec` at a concrete actuator: all three hypotheses
are dischargeable at concrete inputs. -/
theorem setState_spec_witness :
    (actOnAt0.setState 50 true = (actOnAt0, false))
    ∧ (actOnAt0.setState 50 false = (actOnAt0, false))
    ∧ (actOnAt0.setState 150 false =
        ({ actOnAt0 with pinLevel := false, actualState := false, lastTimeSwitched := 150 }, true)) :=
  ⟨(setState_spec actOnAt0 50 true).1 (by decide),
   (setState_spec actOnAt0 50 false).2.1 (by decide) (by decide),
   (setState_spec actOnAt0 150 false).2.2 (by decide) (by decide)⟩

/-! ## Actuator manager (`device/actuator_manager.cpp`)

The registered actuators are modelled as a `List Actuator` (index `i` is the
registry index).  `actuatorsWithAutoOffIndexes` is the precomputed list of
indices with an auto-off timer, iterated by the per-tick sweep. -/

/-- `Actuators::actuatorsAutoOffTimersCheck`: runs `checkAutoOffTimer` on each
actuator of the precomputed auto-off subset, OR-ing the results. -/
def actuatorsAutoOffTimersCheck (now : Nat) (idxs : List Nat) (acts : List Actuator) :
    List Actuator × Bool :=
  match idxs with
  | [] => (acts, false)
  | i :: rest =>
    match acts[i]? with
    | some a =>
      let (a', changed) := a.checkAutoOffTimer now
      let (acts', restChanged) := actuatorsAutoOffTimersCheck now rest (acts.set i a')
      (acts', changed || restChanged)
    | none => actuatorsAutoOffTimersCheck now rest acts

theorem checkAutoOffTimer_of_off (a : Actuator) (now : Nat) (h : a.actualState = false) :
    a.checkAutoOffTimer now = (a, false) := by
  simp [Actuator.checkAutoOffTimer, h]

/-- An actuator that is already off stays off (and untouched) through the
auto-off sweep. -/
theorem sweep_preserves_off (now : Nat) (idxs : List Nat) :
    ∀ (acts : List Actuator) (i : Nat) (a : Actuator),
      acts[i]? = some a → a.actualState = false →
      (actuatorsAutoOffTimersCheck now idxs acts).1[i]? = some a := by
  induction idxs with
  | nil => intro acts i a hi _; simpa [actuatorsAutoOffTimersCheck] using hi
  | cons j rest ih =>
    intro acts i a hi hoff
    unfold actuatorsAutoOffTimersCheck
    rcases hj : acts[j]? with _ | b
    · exact ih acts i a hi hoff
    · simp only
      by_cases hji : j = i
      · subst hji
        rw [hi] at hj; cases hj
        rw [checkAutoOffTimer_of_off a now hoff]
        have hlen : j < acts.length := (List.getElem?_eq_some.mp hi).1
        exact ih (acts.set j a) j a (List.getElem?_set_eq_of_lt a hlen) hoff
      · have hset : ((acts.set j (b.checkAutoOffTimer now).1)[i]? = some a) := by
          rw [List.getElem?_set_ne hji]; exact hi
        exact ih _ i a hset hoff

/-- **C5 (amended).** For every actuator of the precomputed auto-off subset
with `auto_off_ms > 0` and `state = true`: once `auto_off_ms` milliseconds
*and the actuator switch debounce* have both elapsed since `last_switch_time`,
the next auto-off sweep sets its state to `false`.  (The debounce condition is
needed: `check_auto_off` goes through `set_state(false)`, which refuses to
switch inside the debounce window — see `autoOff_sweep_counterexample`.) -/
theorem autoOff_sweep_spec (now : Nat) (idxs : List Nat) :
    ∀ (acts : List Actuator) (i : Nat) (a : Actuator),
      i ∈ idxs → acts[i]? = some a →
      a.actualState = true → a.hasAutoOffTimer = true → 0 < a.autoOffTimer_ms →
      a.autoOffTimer_ms ≤ sub32 now a.lastTimeSwitched →
      ACTUATOR_DEBOUNCE_TIME_MS ≤ sub32 now a.lastTimeSwitched →
      ((actuatorsAutoOffTimersCheck now idxs acts).1[i]?.map Actuator.actualState)
        = some false := by
  induction idxs with
  | nil => intro _ _ _ hmem; cases hmem
  | cons j rest ih =>
    intro acts i a hmem hi hon hflag _hpos helapsed hdeb
    by_cases hji : j = i
    · subst hji
      have hfire : a.checkAutoOffTimer now =
          ({ a with pinLevel := false, actualState := false, lastTimeSwitched := now }, true) := by
        have hnd : ¬ sub32 now a.lastTimeSwitched < ACTUATOR_DEBOUNCE_TIME_MS :=
          Nat.not_lt.mpr hdeb
        simp [Actuator.checkAutoOffTimer, Actuator.setState, hon, hflag, helapsed, hnd]
      have hlen : j < acts.length := (List.getElem?_eq_some.mp hi).1
      unfold actuatorsAutoOffTimersCheck
      rw [hi]
      simp only [hfire]
      have hset := List.getElem?_set_eq_of_lt
        ({ a with pinLevel := false, actualState := false, lastTimeSwitched := now }) hlen
      have := sweep_preserves_off now rest
        (acts.set j { a with pinLevel := false, actualState := false, lastTimeSwitched := now })
        j _ hset rfl
      rw [this]
      rfl
    · have hmem' : i ∈ rest := by
        rcases List.mem_cons.mp hmem with h | h
        · exact absurd h.symm hji
        · exact h
      unfold actuatorsAutoOffTimersCheck
      rcases hj : acts[j]? with _ | b
      · exact ih acts i a hmem' hi hon hflag _hpos helapsed hdeb
      · simp only
        have hset : (acts.set j (b.checkAutoOffTimer now).1)[i]? = some a := by
          rw [List.getElem?_set_ne hji]; exact hi
        exact ih _ i a hmem' hset hon hflag _hpos helapsed hdeb

/-- A concrete actuator whose auto-off timer (50 ms) is shorter than the
actuator switch debounce (100 ms), switched on at time 0. -/
def autoOffShortTimer : Actuator :=
  { id := 1, defaultState := false, actualState := true, pinLevel := true,
    lastTimeSwitched := 0, isProtected := false, hasAutoOffTimer := true,
    autoOffTimer_ms := 50 }

/-- **C5 counterexample.** At time 50, the auto-off timer of
`autoOffShortTimer` (50 ms, > 0, state on) has fully elapsed, yet the sweep
over the auto-off subset `[0]` leaves the actuator on and unchanged: the
inner `set_state(false)` is rejected by the 100 ms switch debounce. -/
theorem autoOff_sweep_counterexample :
    0 < autoOffShortTimer.autoOffTimer_ms
    ∧ autoOffShortTimer.actualState = true
    ∧ autoOffShortTimer.hasAutoOffTimer = true
    ∧ autoOffShortTimer.autoOffTimer_ms ≤ sub32 50 autoOffShortTimer.lastTimeSwitched
    ∧ (actuatorsAutoOffTimersCheck 50 [0] [autoOffShortTimer]).1[0]? = some autoOffShortTimer
    ∧ ((actuatorsAutoOffTimersCheck 50 [0] [autoOffShortTimer]).1[0]?.map Actuator.actualState)
        = some true := by
  refine ⟨by decide, by decide, by decide, by decide, ?_, ?_⟩ <;> decide

/-- Witness for `autoOff_sweep_spec`: at time 150 both the 50 ms auto-off
timer and the 100 ms debounce have elapsed, and the sweep switches the
actuator off. -/
theorem autoOff_sweep_spec_witness :
    ((actuatorsAutoOffTimersCheck 150 [0] [autoOffShortTimer]).1[0]?.map Actuator.actualState)
      = some false :=
  autoOff_sweep_spec 150 [0] [autoOffShortTimer] 0 autoOffShortTimer
    (by decide) (by decide) (by decide) (by decide) (by decide) (by decide) (by decide)

/-! ## Click-type enums (`util/constants/clicktypes.hpp`) -/

/-- `constants::ClickType`. -/
inductive ClickType : Type
  | NONE | SHORT | LONG | SUPER_LONG
  deriving Repr, DecidableEq

/-- `constants::LongClickType`. -/
inductive LongClickType : Type
  | NONE | NORMAL | ON_ONLY | OFF_ONLY
  deriving Repr, DecidableEq

/-- `constants::SuperLongClickType`. -/
inductive SuperLongClickType : Type
  | NONE | NORMAL | SELECTIVE
  deriving Repr, DecidableEq

/-- `constants::NoNetworkClickType`. -/
inductive NoNetworkClickType : Type
  | NONE | LOCAL_FALLBACK | DO_NOTHING
  deriving Repr, DecidableEq

/-! ## Clickable configuration and click actions (`peripherals/input/clickable.cpp`)

`ClickCfg` models the configuration part of class `Clickable` (identity,
capability flags, attached actuator index lists, click kinds, network
fallbacks) used by the click actions and the network-click layer.  The input
FSM part of the class is modelled separately below by `ClickableFsm`. -/

structure ClickCfg where
  id : Nat
  index : Nat
  isShortClickable : Bool
  isLongClickable : Bool
  isSuperLongClickable : Bool
  isNetworkLongClickable : Bool
  isNetworkSuperLongClickable : Bool
  longClickType : LongClickType
  longClickFallback : NoNetworkClickType
  superLongClickType : SuperLongClickType
  superLongClickFallback : NoNetworkClickType
  actuatorsShort : List Nat
  actuatorsLong : List Nat
  actuatorsSuperLong : List Nat
  deriving Repr, DecidableEq

/-- `Clickable::isNetworkClickable`. -/
def ClickCfg.isNetworkClickable (c : ClickCfg) : ClickType → Bool
  | ClickType.LONG => c.isNetworkLongClickable
  | ClickType.SUPER_LONG => c.isNetworkSuperLongClickable
  | _ => false

/-- `Clickable::getNetworkFallback`. -/
def ClickCfg.getNetworkFallback (c : ClickCfg) : ClickType → NoNetworkClickType
  | ClickType.LONG => c.longClickFallback
  | ClickType.SUPER_LONG => c.superLongClickFallback
  | _ => NoNetworkClickType.NONE

/-- Sequentially apply `Actuator::setState(target)` to the registry slots
named by `idxs` (the apply loop at the end of `Clickable::longClick`, and the
loops of `shortClick`/`superLongClickSelective` with their own targets),
OR-ing the per-actuator results. -/
def setStateAll (now : Nat) (target : Bool) (idxs : List Nat) (acts : List Actuator) :
    List Actuator × Bool :=
  match idxs with
  | [] => (acts, false)
  | i :: rest =>
    match acts[i]? with
    | some a =>
      let (a', changed) := a.setState now target
      let (acts', restChanged) := setStateAll now target rest (acts.set i a')
      (acts', changed || restChanged)
    | none => setStateAll now target rest acts

/-- The list of per-actuator `set_state` results produced by `setStateAll`,
in order (used to state that the return value is their OR). -/
def setStateResults (now : Nat) (target : Bool) (idxs : List Nat) (acts : List Actuator) :
    List Bool :=
  match idxs with
  | [] => []
  | i :: rest =>
    match acts[i]? with
    | some a =>
      let (a', changed) := a.setState now target
      changed :: setStateResults now target rest (acts.set i a')
    | none => setStateResults now target rest acts

/-- The `uint8_t` accumulation `actuatorsLongOn += (uint8_t)getState()` of
`Clickable::longClick` (wraps at 256). -/
def countOnU8 (acts : List Actuator) : List Nat → Nat → Nat
  | [], n => n
  | i :: rest, n =>
    countOnU8 acts rest ((n + (if (acts[i]?.map Actuator.actualState).getD false then 1 else 0)) % 256)

/-- Mathematical count of currently-on actuators among `idxs` (specification
side, no wrap-around). -/
def specCountOn (acts : List Actuator) : List Nat → Nat
  | [] => 0
  | i :: rest =>
    (if (acts[i]?.map Actuator.actualState).getD false then 1 else 0) + specCountOn acts rest

/-- `Clickable::getTotalActuators(LONG)`: the vector size cast to `uint8_t`. -/
def ClickCfg.totalLongActuators (c : ClickCfg) : Nat := c.actuatorsLong.length % 256

/-- `Clickable::longClick`: computes the target by `longClickType` (NORMAL
uses the `(on << 1) < total` comparison on `uint8_t`-derived values) and
applies it to every actuator in `actuatorsLong`. -/
def ClickCfg.longClick (c : ClickCfg) (now : Nat) (acts : List Actuator) :
    List Actuator × Bool :=
  if ¬ c.isLongClickable then (acts, false)
  else
    match c.longClickType with
    | LongClickType.NORMAL =>
      setStateAll now (decide (countOnU8 acts c.actuatorsLong 0 * 2 < c.totalLongActuators))
        c.actuatorsLong acts
    | LongClickType.ON_ONLY => setStateAll now true c.actuatorsLong acts
    | LongClickType.OFF_ONLY => setStateAll now false c.actuatorsLong acts
    | LongClickType.NONE => (acts, false)

theorem countOnU8_eq_mod (acts : List Actuator) :
    ∀ (idxs : List Nat) (n : Nat), n < 256 →
      countOnU8 acts idxs n = (n + specCountOn acts idxs) % 256 := by
  intro idxs
  induction idxs with
  | nil =>
    intro n hn
    simp [countOnU8, specCountOn, Nat.mod_eq_of_lt hn]
  | cons i rest ih =>
    intro n _hn
    unfold countOnU8 specCountOn
    rw [ih _ (Nat.mod_lt _ (by omega)), Nat.mod_add_mod]
    ring_nf

theorem specCountOn_le_length (acts : List Actuator) :
    ∀ idxs : List Nat, specCountOn acts idxs ≤ idxs.length := by
  intro idxs
  induction idxs with
  | nil => simp [specCountOn]
  | cons i rest ih =>
    unfold specCountOn
    split <;> simp [List.length_cons] <;> omega

theorem setStateAll_snd_eq_any (now : Nat) (target : Bool) :
    ∀ (idxs : List Nat) (acts : List Actuator),
      (setStateAll now target idxs acts).2 = (setStateResults now target idxs acts).any id := by
  intro idxs
  induction idxs with
  | nil => intro acts; simp [setStateAll, setStateResults]
  | cons i rest ih =>
    intro acts
    unfold setStateAll setStateResults
    rcases h : acts[i]? with _ | a
    · exact ih acts
    · simp only [List.any_cons, id]
      rw [ih]

/-- **C6.** For a long-clickable with `long_kind NORMAL`, the target applied
to every actuator of `actuators_long` is `true` exactly when twice the count
of currently-on actuators in the list is strictly less than its size (so a
tie at exactly half yields `false`); `ON_ONLY` always applies `true`,
`OFF_ONLY` always applies `false`; and the return value is the OR of the
per-actuator `set_state` results. -/
theorem longClick_spec (c : ClickCfg) (now : Nat) (acts : List Actuator)
    (hlc : c.isLongClickable = true) (hlen : c.actuatorsLong.length ≤ 255) :
    (c.longClickType = LongClickType.NORMAL →
      c.longClick now acts =
        setStateAll now (decide (specCountOn acts c.actuatorsLong * 2 < c.actuatorsLong.length))
          c.actuatorsLong acts)
    ∧ (c.longClickType = LongClickType.NORMAL →
        specCountOn acts c.actuatorsLong * 2 = c.actuatorsLong.length →
        c.longClick now acts = setStateAll now false c.actuatorsLong acts)
    ∧ (c.longClickType = LongClickType.ON_ONLY →
        c.longClick now acts = setStateAll now true c.actuatorsLong acts)
    ∧ (c.longClickType = LongClickType.OFF_ONLY →
        c.longClick now acts = setStateAll now false c.actuatorsLong acts)
    ∧ (∀ target : Bool,
        (setStateAll now target c.actuatorsLong acts).2
          = (setStateResults now target c.actuatorsLong acts).any id) := by
  have hspec : specCountOn acts c.actuatorsLong ≤ 255 :=
    le_trans (specCountOn_le_length acts c.actuatorsLong) hlen
  have hcount : countOnU8 acts c.actuatorsLong 0 = specCountOn acts c.actuatorsLong := by
    rw [countOnU8_eq_mod acts c.actuatorsLong 0 (by omega)]
    rw [Nat.zero_add, Nat.mod_eq_of_lt (by omega)]
  have htot : c.totalLongActuators = c.actuatorsLong.length := by
    unfold ClickCfg.totalLongActuators
    exact Nat.mod_eq_of_lt (by omega)
  refine ⟨?_, ?_, ?_, ?_, fun target => setStateAll_snd_eq_any now target c.actuatorsLong acts⟩
  · intro hN
    simp [ClickCfg.longClick, hlc, hN, hcount, htot]
  · intro hN htie
    have hlt : ¬ specCountOn acts c.actuatorsLong * 2 < c.actuatorsLong.length := by omega
    simp [ClickCfg.longClick, hlc, hN, hcount, htot, hlt]
  · intro hO
    simp [ClickCfg.longClick, hlc, hO]
  · intro hO
    simp [ClickCfg.longClick, hlc, hO]

/-- A two-actuator registry with exactly one actuator on (registry index 0 on,
index 1 off), both switched long ago. -/
def actsHalfOn : List Actuator :=
  [{ id := 1, defaultState := false, actualState := true, pinLevel := true,
     lastTimeSwitched := 0, isProtected := false, hasAutoOffTimer := false, autoOffTimer_ms := 0 },
   { id := 2, defaultState := false, actualState := false, pinLevel := false,
     lastTimeSwitched := 0, isProtected := false, hasAutoOffTimer := false, autoOffTimer_ms := 0 }]

/-- A long-clickable of kind NORMAL attached to both registry actuators. -/
def clickNormalBoth : ClickCfg :=
  { id := 1, index := 0, isShortClickable := false, isLongClickable := true,
    isSuperLongClickable := false, isNetworkLongClickable := false,
    isNetworkSuperLongClickable := false, longClickType := LongClickType.NORMAL,
    longClickFallback := NoNetworkClickType.NONE,
    superLongClickType := SuperLongClickType.NONE,
    superLongClickFallback := NoNetworkClickType.NONE,
    actuatorsShort := [], actuatorsLong := [0, 1], actuatorsSuperLong := [] }

/-- Witness for `longClick_spec`: with exactly half of the two long actuators
on, a NORMAL long click applies target `false` to both. -/
theorem longClick_spec_witness :
    clickNormalBoth.longClick 1000 actsHalfOn
      = setStateAll 1000 false clickNormalBoth.actuatorsLong actsHalfOn :=
  (longClick_spec clickNormalBoth 1000 actsHalfOn (by decide) (by decide)).2.1
    (by decide) (by decide)

/-! ## Clickable input FSM (`peripherals/input/clickable.cpp`, `clickDetection`) -/

/-- `constants::ClickResult` (`util/constants/clickresults.hpp`). -/
inductive ClickResult : Type
  | NOT_VALID
  | NO_CLICK
  | SHORT_CLICK
  | SHORT_CLICK_QUICK
  | LONG_CLICK
  | DOUBLE_CLICK
  | SUPER_LONG_CLICK
  | NO_CLICK_DEBOUNCE_NOT_ELAPSED
  | NO_CLICK_TOO_EARLY_FOR_A_LONG_CLICK
  | NO_CLICK_TOO_EARLY_FOR_A_SUPER_LONG_CLICK
  | NO_CLICK_TOO_LATE_FOR_A_SHORT_CLICK
  | NO_CLICK_KEEPING_CLICKED
  | NO_CLICK_NOT_SHORT_CLICKABLE
  | NO_CLICK_NOT_LONG_CLICKABLE
  | NO_CLICK_NOT_SUPER_LONG_CLICKABLE
  | NO_CLICK_NOT_LONG_OR_SUPER_LONG_CLICKABLE
  deriving Repr, DecidableEq

/-- `Clickable::State`. -/
inductive FsmState : Type
  | IDLE | DEBOUNCING | PRESSED | RELEASED
  deriving Repr, DecidableEq

/-- `Clickable::ActionFired`. -/
inductive ActionFired : Type
  | NONE | LONG | SUPER_LONG
  deriving Repr, DecidableEq

/-- Underlying `uint8_t` value of `ActionFired` (the source compares the enum
with `<`). -/
def ActionFired.toNat : ActionFired → Nat
  | ActionFired.NONE => 0
  | ActionFired.LONG => 1
  | ActionFired.SUPER_LONG => 2

/-- The FSM ("hot") part of class `Clickable`: capability flags, timings and
the three state variables mutated by `clickDetection`. -/
structure ClickableFsm where
  isShortClickable : Bool
  isLongClickable : Bool
  isSuperLongClickable : Bool
  isQuickClickable : Bool
  debounce_ms : Nat
  longClick_ms : Nat
  superLongClick_ms : Nat
  currentState : FsmState
  stateChangeTime : Nat
  lastActionFired : ActionFired
  deriving Repr, DecidableEq

/-- The RELEASED case of `Clickable::clickDetection` (also reached by
fall-through from PRESSED on release). -/
def releasedStep (c : ClickableFsm) : ClickableFsm × ClickResult :=
  let c' := { c with currentState := FsmState.IDLE }
  if c.isQuickClickable then (c', ClickResult.NO_CLICK)
  else if c.lastActionFired = ActionFired.NONE then
    (c', if c.isShortClickable then ClickResult.SHORT_CLICK
         else ClickResult.NO_CLICK_NOT_SHORT_CLICKABLE)
  else (c', ClickResult.NO_CLICK)

/-- `Clickable::clickDetection`: one invocation of the input FSM given the
polled pin level `isPressed` and the cached time `now`. Returns the updated
FSM and the click result. -/
def clickDetection (c : ClickableFsm) (isPressed : Bool) (now : Nat) :
    ClickableFsm × ClickResult :=
  match c.currentState with
  | FsmState.IDLE =>
    if isPressed then
      ({ c with currentState := FsmState.DEBOUNCING, stateChangeTime := now },
        ClickResult.NO_CLICK)
    else (c, ClickResult.NO_CLICK)
  | FsmState.DEBOUNCING =>
    if c.debounce_ms ≤ sub32 now c.stateChangeTime then
      if isPressed then
        let c' := { c with currentState := FsmState.PRESSED, stateChangeTime := now,
                           lastActionFired := ActionFired.NONE }
        if c.isQuickClickable then (c', ClickResult.SHORT_CLICK_QUICK)
        else (c', ClickResult.NO_CLICK)
      else ({ c with currentState := FsmState.IDLE }, ClickResult.NO_CLICK)
    else (c, ClickResult.NO_CLICK)
  | FsmState.PRESSED =>
    if isPressed then
      if c.isSuperLongClickable = true ∧ c.lastActionFired.toNat < 2
          ∧ c.superLongClick_ms ≤ sub32 now c.stateChangeTime then
        ({ c with lastActionFired := ActionFired.SUPER_LONG }, ClickResult.SUPER_LONG_CLICK)
      else if c.isLongClickable = true ∧ c.lastActionFired.toNat < 1
          ∧ c.longClick_ms ≤ sub32 now c.stateChangeTime then
        ({ c with lastActionFired := ActionFired.LONG }, ClickResult.LONG_CLICK)
      else (c, ClickResult.NO_CLICK_KEEPING_CLICKED)
    else
      releasedStep { c with currentState := FsmState.RELEASED }
  | FsmState.RELEASED => releasedStep c

/-- Run the FSM over a list of `(now, isPressed)` polls, collecting results. -/
def runFsm (c : ClickableFsm) : List (Nat × Bool) → ClickableFsm × List ClickResult
  | [] => (c, [])
  | (t, p) :: rest =>
    let step := clickDetection c p t
    let run := runFsm step.1 rest
    (run.1, step.2 :: run.2)

/-- A trace in which the button is observed held at each of the given times. -/
def pressTrace (ts : List Nat) : List (Nat × Bool) := ts.map (fun t => (t, true))

theorem runFsm_append (l1 l2 : List (Nat × Bool)) :
    ∀ c : ClickableFsm,
      runFsm c (l1 ++ l2) =
        ((runFsm (runFsm c l1).1 l2).1, (runFsm c l1).2 ++ (runFsm (runFsm c l1).1 l2).2) := by
  induction l1 with
  | nil => intro c; simp [runFsm]
  | cons hd tl ih =>
    intro c
    obtain ⟨t, p⟩ := hd
    simp only [List.cons_append, runFsm, List.append_eq, ih]

/-- Unfolding of `clickDetection` in state PRESSED with the button held. -/
theorem clickDetection_pressed_held (c : ClickableFsm) (now : Nat)
    (hst : c.currentState = FsmState.PRESSED) :
    clickDetection c true now =
      if c.isSuperLongClickable = true ∧ c.lastActionFired.toNat < 2
          ∧ c.superLongClick_ms ≤ sub32 now c.stateChangeTime then
        ({ c with lastActionFired := ActionFired.SUPER_LONG }, ClickResult.SUPER_LONG_CLICK)
      else if c.isLongClickable = true ∧ c.lastActionFired.toNat < 1
          ∧ c.longClick_ms ≤ sub32 now c.stateChangeTime then
        ({ c with lastActionFired := ActionFired.LONG }, ClickResult.LONG_CLICK)
      else (c, ClickResult.NO_CLICK_KEEPING_CLICKED) := by
  obtain ⟨f1, f2, f3, f4, d1, d2, d3, cs, t0, laf⟩ := c
  dsimp only at hst
  subst hst
  rfl

/-- Unfolding of `clickDetection` in state PRESSED on release: the FSM falls
through to the RELEASED handling in the same invocation. -/
theorem clickDetection_pressed_release (c : ClickableFsm) (now : Nat)
    (hst : c.currentState = FsmState.PRESSED) :
    clickDetection c false now = releasedStep { c with currentState := FsmState.RELEASED } := by
  obtain ⟨f1, f2, f3, f4, d1, d2, d3, cs, t0, laf⟩ := c
  dsimp only at hst
  subst hst
  rfl

/-- Case analysis of one poll in state PRESSED with the button held: either
the super-long check fires (checked first), or the long check fires, or the
FSM is left unchanged. -/
theorem pressedStep_cases (c : ClickableFsm) (now : Nat)
    (hst : c.currentState = FsmState.PRESSED) :
    ((c.isSuperLongClickable = true ∧ c.lastActionFired.toNat < 2
        ∧ c.superLongClick_ms ≤ sub32 now c.stateChangeTime)
      ∧ clickDetection c true now
          = ({ c with lastActionFired := ActionFired.SUPER_LONG }, ClickResult.SUPER_LONG_CLICK))
    ∨ (¬(c.isSuperLongClickable = true ∧ c.lastActionFired.toNat < 2
        ∧ c.superLongClick_ms ≤ sub32 now c.stateChangeTime)
      ∧ (c.isLongClickable = true ∧ c.lastActionFired.toNat < 1
        ∧ c.longClick_ms ≤ sub32 now c.stateChangeTime)
      ∧ clickDetection c true now
          = ({ c with lastActionFired := ActionFired.LONG }, ClickResult.LONG_CLICK))
    ∨ (¬(c.isSuperLongClickable = true ∧ c.lastActionFired.toNat < 2
        ∧ c.superLongClick_ms ≤ sub32 now c.stateChangeTime)
      ∧ ¬(c.isLongClickable = true ∧ c.lastActionFired.toNat < 1
        ∧ c.longClick_ms ≤ sub32 now c.stateChangeTime)
      ∧ clickDetection c true now = (c, ClickResult.NO_CLICK_KEEPING_CLICKED)) := by
  rw [clickDetection_pressed_held c now hst]
  split_ifs with h1 h2
  · exact Or.inl ⟨h1, rfl⟩
  · exact Or.inr (Or.inl ⟨h1, h2, rfl⟩)
  · exact Or.inr (Or.inr ⟨h1, h2, rfl⟩)

/-- Any pressed poll in PRESSED only (possibly) updates `lastActionFired`. -/
theorem pressedStep_struct (c : ClickableFsm) (now : Nat)
    (hst : c.currentState = FsmState.PRESSED) :
    ∃ af r, clickDetection c true now = ({ c with lastActionFired := af }, r) := by
  rcases pressedStep_cases c now hst with ⟨_, h⟩ | ⟨_, _, h⟩ | ⟨_, _, h⟩
  · exact ⟨ActionFired.SUPER_LONG, ClickResult.SUPER_LONG_CLICK, h⟩
  · exact ⟨ActionFired.LONG, ClickResult.LONG_CLICK, h⟩
  · exact ⟨c.lastActionFired, ClickResult.NO_CLICK_KEEPING_CLICKED, h⟩

/-- A run of pressed polls from PRESSED only (possibly) updates
`lastActionFired`. -/
theorem pressedRun_struct (ts : List Nat) :
    ∀ c : ClickableFsm, c.currentState = FsmState.PRESSED →
      ∃ af, (runFsm c (pressTrace ts)).1 = { c with lastActionFired := af } := by
  induction ts with
  | nil =>
    intro c _
    exact ⟨c.lastActionFired, by simp [pressTrace, runFsm]⟩
  | cons t rest ih =>
    intro c hst
    obtain ⟨af, r, hstep⟩ := pressedStep_struct c t hst
    obtain ⟨af', hrun⟩ := ih { c with lastActionFired := af } (by simpa using hst)
    refine ⟨af', ?_⟩
    simp only [pressTrace, List.map_cons, runFsm, hstep]
    simpa using hrun

/-- Every result of a run of pressed polls from PRESSED is `SUPER_LONG_CLICK`,
`LONG_CLICK` or `NO_CLICK_KEEPING_CLICKED`. -/
theorem pressedRun_results (ts : List Nat) :
    ∀ c : ClickableFsm, c.currentState = FsmState.PRESSED →
      ∀ r ∈ (runFsm c (pressTrace ts)).2,
        r = ClickResult.SUPER_LONG_CLICK ∨ r = ClickResult.LONG_CLICK
          ∨ r = ClickResult.NO_CLICK_KEEPING_CLICKED := by
  induction ts with
  | nil => intro c _ r hr; simp [pressTrace, runFsm] at hr
  | cons t rest ih =>
    intro c hst r hr
    rcases pressedStep_cases c t hst with ⟨_, hstep⟩ | ⟨_, _, hstep⟩ | ⟨_, _, hstep⟩
    · simp only [pressTrace, List.map_cons, runFsm, hstep, List.mem_cons] at hr
      rcases hr with h | h
      · exact Or.inl h
      · exact ih { c with lastActionFired := ActionFired.SUPER_LONG } (by simpa using hst) r
          (by simpa [pressTrace] using h)
    · simp only [pressTrace, List.map_cons, runFsm, hstep, List.mem_cons] at hr
      rcases hr with h | h
      · exact Or.inr (Or.inl h)
      · exact ih { c with lastActionFired := ActionFired.LONG } (by simpa using hst) r
          (by simpa [pressTrace] using h)
    · simp only [pressTrace, List.map_cons, runFsm, hstep, List.mem_cons] at hr
      rcases hr with h | h
      · exact Or.inr (Or.inr h)
      · exact ih _ hst r (by simpa [pressTrace] using h)

/-- On a long-clickable, a run of pressed polls among which some poll observes
a press duration of at least `longClick_ms` (or a timed action already fired)
ends with `lastActionFired ≠ NONE`. -/
theorem pressedRun_fire (ts : List Nat) :
    ∀ c : ClickableFsm, c.currentState = FsmState.PRESSED →
      c.isLongClickable = true →
      ((∃ t ∈ ts, c.longClick_ms ≤ sub32 t c.stateChangeTime)
        ∨ c.lastActionFired ≠ ActionFired.NONE) →
      (runFsm c (pressTrace ts)).1.lastActionFired ≠ ActionFired.NONE := by
  induction ts with
  | nil =>
    intro c _ _ hdisj
    rcases hdisj with ⟨t, ht, _⟩ | h
    · exact absurd ht (List.not_mem_nil t)
    · simpa [pressTrace, runFsm] using h
  | cons t rest ih =>
    intro c hst hlc hdisj
    rcases pressedStep_cases c t hst with ⟨_, hstep⟩ | ⟨_, _, hstep⟩ | ⟨hns, hnl, hstep⟩
    · simp only [pressTrace, List.map_cons, runFsm, hstep]
      exact ih { c with lastActionFired := ActionFired.SUPER_LONG } (by simpa using hst)
        (by simpa using hlc) (Or.inr (by simp))
    · simp only [pressTrace, List.map_cons, runFsm, hstep]
      exact ih { c with lastActionFired := ActionFired.LONG } (by simpa using hst)
        (by simpa using hlc) (Or.inr (by simp))
    · simp only [pressTrace, List.map_cons, runFsm, hstep]
      by_cases haf : c.lastActionFired = ActionFired.NONE
      · rcases hdisj with ⟨t', ht', hcross⟩ | h
        · rcases List.mem_cons.mp ht' with h' | h'
          · subst h'
            exact absurd ⟨hlc, by simp [haf, ActionFired.toNat], hcross⟩ hnl
          · exact ih c hst hlc (Or.inl ⟨t', h', hcross⟩)
        · exact absurd haf h
      · exact ih c hst hlc (Or.inr haf)

/-- The release poll of a press on which a timed action already fired never
yields `SHORT_CLICK` (it yields `NO_CLICK`). -/
theorem releaseStep_no_short (c : ClickableFsm) (now : Nat)
    (hst : c.currentState = FsmState.PRESSED)
    (haf : c.lastActionFired ≠ ActionFired.NONE) :
    (clickDetection c false now).2 = ClickResult.NO_CLICK := by
  rw [clickDetection_pressed_release c now hst]
  simp [releasedStep, haf]

/-- **C1 (amended).** On a *long-clickable* clickable, for every input
sequence in which a press (from the confirmed DEBOUNCING-to-PRESSED
transition, i.e. state PRESSED with `lastActionFired = NONE` and press start
`stateChangeTime`) is observed held for at least `long_ms` by some poll, the
FSM never returns SHORT_CLICK — in particular not on the release poll.
(Without the long-clickable hypothesis the claim fails, see
`no_spurious_short_counterexample`: a short+super-long-only clickable
released between `long_ms` and `super_long_ms` emits SHORT_CLICK.) -/
theorem no_spurious_short (c : ClickableFsm) (ts : List Nat) (tr : Nat)
    (hst : c.currentState = FsmState.PRESSED)
    (_haf : c.lastActionFired = ActionFired.NONE)
    (hlc : c.isLongClickable = true)
    (hlong : ∃ t ∈ ts, c.longClick_ms ≤ sub32 t c.stateChangeTime) :
    ClickResult.SHORT_CLICK ∉ (runFsm c (pressTrace ts ++ [(tr, false)])).2 := by
  rw [runFsm_append]
  intro hmem
  rcases List.mem_append.mp hmem with h | h
  · rcases pressedRun_results ts c hst ClickResult.SHORT_CLICK h with h' | h' | h' <;> cases h'
  · have hfire := pressedRun_fire ts c hst hlc (Or.inl hlong)
    obtain ⟨af, hc1⟩ := pressedRun_struct ts c hst
    have hc1st : (runFsm c (pressTrace ts)).1.currentState = FsmState.PRESSED := by
      rw [hc1]; simpa using hst
    have hrel := releaseStep_no_short (runFsm c (pressTrace ts)).1 tr hc1st hfire
    have hsingle : (runFsm (runFsm c (pressTrace ts)).1 [(tr, false)]).2
        = [(clickDetection (runFsm c (pressTrace ts)).1 false tr).2] := by
      simp [runFsm]
    rw [hsingle, hrel] at h
    simp at h

/-- A short- and super-long-clickable (but **not** long-clickable) clickable,
idle at time 0, with the default timings (20/400/1000 ms).  Its derived
quick-click flag is false because super-long is enabled. -/
def cfgShortSuper : ClickableFsm :=
  { isShortClickable := true, isLongClickable := false, isSuperLongClickable := true,
    isQuickClickable := false, debounce_ms := 20, longClick_ms := 400,
    superLongClick_ms := 1000, currentState := FsmState.IDLE, stateChangeTime := 0,
    lastActionFired := ActionFired.NONE }

/-- **C1 counterexample.** Press at 0, confirmed at 20 (debounce), still held
at 520 — 500 ms ≥ `long_ms = 400` after the confirmed press start — and
released at 620: `clickDetection` returns SHORT_CLICK on the release, because
no timed action ever fired on this clickable (it is not long-clickable and
the super-long threshold was not reached). -/
theorem no_spurious_short_counterexample :
    cfgShortSuper.longClick_ms ≤ sub32 520 20
    ∧ (runFsm cfgShortSuper [(0, true), (20, true), (520, true), (620, false)]).2
        = [ClickResult.NO_CLICK, ClickResult.NO_CLICK,
           ClickResult.NO_CLICK_KEEPING_CLICKED, ClickResult.SHORT_CLICK] := by
  constructor <;> decide

/-- A short- and long-clickable clickable with a press confirmed at time 20. -/
def cfgShortLongPressed : ClickableFsm :=
  { isShortClickable := true, isLongClickable := true, isSuperLongClickable := false,
    isQuickClickable := false, debounce_ms := 20, longClick_ms := 400,
    superLongClick_ms := 1000, currentState := FsmState.PRESSED, stateChangeTime := 20,
    lastActionFired := ActionFired.NONE }

/-- Witness for `no_spurious_short`: held at 520 (500 ms ≥ 400 ms), released
at 620 — no SHORT_CLICK anywhere in the emitted results. -/
theorem no_spurious_short_witness :
    ClickResult.SHORT_CLICK ∉
      (runFsm cfgShortLongPressed (pressTrace [520] ++ [(620, false)])).2 :=
  no_spurious_short cfgShortLongPressed [520] 620 (by decide) (by decide) (by decide)
    ⟨520, by decide, by decide⟩

theorem toNat_lt_two_of_ne_super (af : ActionFired) (h : af ≠ ActionFired.SUPER_LONG) :
    af.toNat < 2 := by
  cases af with
  | NONE => decide
  | LONG => decide
  | SUPER_LONG => exact absurd rfl h

/-- Once `lastActionFired = SUPER_LONG`, every further pressed poll of the
same press leaves the FSM untouched and yields `NO_CLICK_KEEPING_CLICKED`. -/
theorem pressedRun_after_super (ts : List Nat) :
    ∀ c : ClickableFsm, c.currentState = FsmState.PRESSED →
      c.lastActionFired = ActionFired.SUPER_LONG →
      runFsm c (pressTrace ts)
        = (c, List.replicate ts.length ClickResult.NO_CLICK_KEEPING_CLICKED) := by
  induction ts with
  | nil => intro c _ _; simp [pressTrace, runFsm]
  | cons t rest ih =>
    intro c hst haf
    have hstep : clickDetection c true t = (c, ClickResult.NO_CLICK_KEEPING_CLICKED) := by
      rcases pressedStep_cases c t hst with ⟨⟨_, hlt, _⟩, _⟩ | ⟨_, ⟨_, hlt, _⟩, _⟩ | ⟨_, _, h⟩
      · rw [haf] at hlt; exact absurd hlt (by decide)
      · rw [haf] at hlt; exact absurd hlt (by decide)
      · exact h
    simp only [pressTrace, List.map_cons, runFsm, hstep]
    rw [show List.map (fun t => (t, true)) rest = pressTrace rest from rfl, ih c hst haf]
    simp [List.replicate_succ]

/-- From PRESSED with no super-long fired yet, a run of pressed polls with
some poll at or past the super-long threshold yields `SUPER_LONG_CLICK`
exactly once, and no `LONG_CLICK` after it. -/
theorem pressedRun_super_decomp (ts : List Nat) :
    ∀ c : ClickableFsm, c.currentState = FsmState.PRESSED →
      c.isSuperLongClickable = true →
      c.lastActionFired ≠ ActionFired.SUPER_LONG →
      (∃ t ∈ ts, c.superLongClick_ms ≤ sub32 t c.stateChangeTime) →
      ∃ pre post,
        (runFsm c (pressTrace ts)).2 = pre ++ ClickResult.SUPER_LONG_CLICK :: post
        ∧ ClickResult.SUPER_LONG_CLICK ∉ pre
        ∧ ClickResult.SUPER_LONG_CLICK ∉ post
        ∧ ClickResult.LONG_CLICK ∉ post := by
  induction ts with
  | nil =>
    intro c _ _ _ hex
    rcases hex with ⟨t, ht, _⟩
    exact absurd ht (List.not_mem_nil t)
  | cons t rest ih =>
    intro c hst hsl haf hex
    by_cases hcross : c.superLongClick_ms ≤ sub32 t c.stateChangeTime
    · have hcond : c.isSuperLongClickable = true ∧ c.lastActionFired.toNat < 2
          ∧ c.superLongClick_ms ≤ sub32 t c.stateChangeTime :=
        ⟨hsl, toNat_lt_two_of_ne_super c.lastActionFired haf, hcross⟩
      rcases pressedStep_cases c t hst with ⟨_, hstep⟩ | ⟨hns, _, _⟩ | ⟨hns, _, _⟩
      · refine ⟨[], List.replicate rest.length ClickResult.NO_CLICK_KEEPING_CLICKED, ?_, ?_, ?_, ?_⟩
        · simp only [pressTrace, List.map_cons, runFsm, hstep]
          rw [show List.map (fun t => (t, true)) rest = pressTrace rest from rfl,
            pressedRun_after_super rest { c with lastActionFired := ActionFired.SUPER_LONG }
              (by simpa using hst) (by simp)]
          rfl
        · simp
        · simp [List.mem_replicate]
        · simp [List.mem_replicate]
      · exact absurd hcond hns
      · exact absurd hcond hns
    · have hex' : ∃ t' ∈ rest, c.superLongClick_ms ≤ sub32 t' c.stateChangeTime := by
        rcases hex with ⟨t', ht', hc'⟩
        rcases List.mem_cons.mp ht' with h' | h'
        · subst h'; exact absurd hc' hcross
        · exact ⟨t', h', hc'⟩
      rcases pressedStep_cases c t hst with ⟨⟨_, _, hc3⟩, _⟩ | ⟨_, _, hstep⟩ | ⟨_, _, hstep⟩
      · exact absurd hc3 hcross
      · obtain ⟨pre', post', hdec, hp1, hp2, hp3⟩ :=
          ih { c with lastActionFired := ActionFired.LONG } (by simpa using hst)
            (by simpa using hsl) (by simp) (by simpa using hex')
        refine ⟨ClickResult.LONG_CLICK :: pre', post', ?_, ?_, hp2, hp3⟩
        · simp only [pressTrace, List.map_cons, runFsm, hstep]
          rw [show List.map (fun t => (t, true)) rest = pressTrace rest from rfl, hdec]
          rfl
        · simp [hp1]
      · obtain ⟨pre', post', hdec, hp1, hp2, hp3⟩ := ih c hst hsl haf hex'
        refine ⟨ClickResult.NO_CLICK_KEEPING_CLICKED :: pre', post', ?_, ?_, hp2, hp3⟩
        · simp only [pressTrace, List.map_cons, runFsm, hstep]
          rw [show List.map (fun t => (t, true)) rest = pressTrace rest from rfl, hdec]
          rfl
        · simp [hp1]

/-- **C2.** (a) For every press confirmed on a super-long-clickable
(PRESSED, `lastActionFired = NONE`) in which some poll observes a duration of
at least `super_long_ms`, the run of pressed polls returns SUPER_LONG_CLICK
exactly once and never returns LONG_CLICK (nor another SUPER_LONG_CLICK)
after it.  (b) Priority: an invocation in PRESSED that observes the
super-long threshold crossed returns SUPER_LONG_CLICK — the super-long check
is performed first, so it wins even when the long threshold is also crossed
in the same invocation. -/
theorem super_long_preemption :
    (∀ (c : ClickableFsm) (ts : List Nat),
      c.currentState = FsmState.PRESSED → c.lastActionFired = ActionFired.NONE →
      c.isSuperLongClickable = true →
      (∃ t ∈ ts, c.superLongClick_ms ≤ sub32 t c.stateChangeTime) →
      ∃ pre post,
        (runFsm c (pressTrace ts)).2 = pre ++ ClickResult.SUPER_LONG_CLICK :: post
        ∧ ClickResult.SUPER_LONG_CLICK ∉ pre
        ∧ ClickResult.SUPER_LONG_CLICK ∉ post
        ∧ ClickResult.LONG_CLICK ∉ post)
    ∧ (∀ (c : ClickableFsm) (now : Nat),
      c.currentState = FsmState.PRESSED → c.isSuperLongClickable = true →
      c.lastActionFired ≠ ActionFired.SUPER_LONG →
      c.superLongClick_ms ≤ sub32 now c.stateChangeTime →
      (clickDetection c true now).2 = ClickResult.SUPER_LONG_CLICK) := by
  constructor
  · intro c ts hst haf hsl hex
    exact pressedRun_super_decomp ts c hst hsl (by rw [haf]; decide) hex
  · intro c now hst hsl haf hcross
    rcases pressedStep_cases c now hst with ⟨_, hstep⟩ | ⟨hns, _, _⟩ | ⟨hns, _, _⟩
    · rw [hstep]
    · exact absurd ⟨hsl, toNat_lt_two_of_ne_super c.lastActionFired haf, hcross⟩ hns
    · exact absurd ⟨hsl, toNat_lt_two_of_ne_super c.lastActionFired haf, hcross⟩ hns

/-- A fully-capable clickable (short, long and super-long) with a press
confirmed at time 0. -/
def cfgAllPressed : ClickableFsm :=
  { isShortClickable := true, isLongClickable := true, isSuperLongClickable := true,
    isQuickClickable := false, debounce_ms := 20, longClick_ms := 400,
    superLongClick_ms := 1000, currentState := FsmState.PRESSED, stateChangeTime := 0,
    lastActionFired := ActionFired.NONE }

/-- Witness for `super_long_preemption`: a press held at 1200 ms crosses both
the long and super-long thresholds in one poll; the run emits
SUPER_LONG_CLICK once and the single poll returns SUPER_LONG_CLICK. -/
theorem super_long_preemption_witness :
    (∃ pre post,
      (runFsm cfgAllPressed (pressTrace [1200, 1300])).2
        = pre ++ ClickResult.SUPER_LONG_CLICK :: post
      ∧ ClickResult.SUPER_LONG_CLICK ∉ pre
      ∧ ClickResult.SUPER_LONG_CLICK ∉ post
      ∧ ClickResult.LONG_CLICK ∉ post)
    ∧ (clickDetection cfgAllPressed true 1200).2 = ClickResult.SUPER_LONG_CLICK :=
  ⟨super_long_preemption.1 cfgAllPressed [1200, 1300] (by decide) (by decide) (by decide)
      ⟨1200, by decide, by decide⟩,
   super_long_preemption.2 cfgAllPressed 1200 (by decide) (by decide) (by decide) (by decide)⟩

/-! ## Network clicks and dispatch (`core/network_clicks.cpp`,
`communication/deserializer.cpp`, `communication/serializer.cpp`,
`core/lsh_core.cpp`)

The global registries and the two pending maps become one `SysState` record.
The `etl::map`s are modelled as association lists with unique keys (only
lookup, insert-or-assign, erase and emptiness are used by this layer). -/

/-- A wire record emitted to the bridge. -/
inductive WireOut : Type
  | networkClick (t : Nat) (i : Nat) (c : Nat)
  | actuatorsState (s : List Nat)
  deriving Repr, DecidableEq

/-- `LSH::protocol::ProtocolClickType` value written for a click type by
`Serializer::serializeNetworkClick` (LONG = 1, SUPER_LONG = 2). -/
def protocolTypeOf : ClickType → Option Nat
  | ClickType.LONG => some 1
  | ClickType.SUPER_LONG => some 2
  | _ => none

/-- The mutable global state of the core: registries, the two pending
network-click maps and the stream of emitted wire records. -/
structure SysState where
  clickables : List ClickCfg
  actuators : List Actuator
  pendingLong : List (Nat × Nat)
  pendingSuperLong : List (Nat × Nat)
  emitted : List WireOut
  deriving Repr, DecidableEq

/-- Insert-or-assign on an association-list map (`(*map)[k] = v`). -/
def alInsert (k v : Nat) : List (Nat × Nat) → List (Nat × Nat)
  | [] => [(k, v)]
  | p :: rest => if p.1 = k then (k, v) :: rest else p :: alInsert k v rest

/-- Erase the entry with key `k` (`map->erase(it)` after a successful find;
keys are unique, so filtering is equivalent). -/
def alErase (k : Nat) (m : List (Nat × Nat)) : List (Nat × Nat) :=
  m.filter (fun p => decide (p.1 ≠ k))

/-- `Serializer::serializeNetworkClick`: emits
`{p:3, t:kind, i:clickables[idx].id, c:confirm}`; invalid click kinds emit
nothing (the source returns before sending). -/
def serializeNetworkClick (idx : Nat) (ty : ClickType) (confirm : Bool) (s : SysState) :
    SysState :=
  match protocolTypeOf ty with
  | none => s
  | some t =>
    match s.clickables[idx]? with
    | some cl =>
      { s with emitted := s.emitted ++ [WireOut.networkClick t cl.id (if confirm then 1 else 0)] }
    | none => s

/-- `NetworkClicks::storeNetworkClickTime`. -/
def storeNetworkClickTime (now idx : Nat) (ty : ClickType) (s : SysState) : SysState :=
  match ty with
  | ClickType.LONG => { s with pendingLong := alInsert idx now s.pendingLong }
  | ClickType.SUPER_LONG => { s with pendingSuperLong := alInsert idx now s.pendingSuperLong }
  | _ => s

/-- `NetworkClicks::request`: send `{..., c:0}` and start the fallback timer. -/
def request (now idx : Nat) (ty : ClickType) (s : SysState) : SysState :=
  storeNetworkClickTime now idx ty (serializeNetworkClick idx ty false s)

/-- `NetworkClicks::thereAreActiveNetworkCLicks` (name as in the source). -/
def thereAreActiveNetworkCLicks (s : SysState) : Bool :=
  !s.pendingLong.isEmpty || !s.pendingSuperLong.isEmpty

/-- `NetworkClicks::eraseNetworkClick`. -/
def eraseNetworkClick (idx : Nat) (ty : ClickType) (s : SysState) : SysState :=
  match ty with
  | ClickType.LONG => { s with pendingLong := alErase idx s.pendingLong }
  | ClickType.SUPER_LONG => { s with pendingSuperLong := alErase idx s.pendingSuperLong }
  | _ => s

/-- `NetworkClicks::confirm`: send `{..., c:1}`, remove the pending entry,
return whether any network clicks are still pending. -/
def confirm (idx : Nat) (ty : ClickType) (s : SysState) : SysState × Bool :=
  let s1 := serializeNetworkClick idx ty true s
  let s2 := eraseNetworkClick idx ty s1
  (s2, thereAreActiveNetworkCLicks s2)

/-- `NetworkClicks::isNetworkClickExpired`: true when no entry exists or when
the entry is older than `LCNB_TIMEOUT_MS` (in which case it is erased as a
side effect); an invalid click kind counts as expired. -/
def isNetworkClickExpired (now idx : Nat) (ty : ClickType) (s : SysState) :
    Bool × SysState :=
  match ty with
  | ClickType.LONG =>
    match s.pendingLong.lookup idx with
    | none => (true, s)
    | some t0 =>
      if LCNB_TIMEOUT_MS < sub32 now t0 then
        (true, { s with pendingLong := alErase idx s.pendingLong })
      else (false, s)
  | ClickType.SUPER_LONG =>
    match s.pendingSuperLong.lookup idx with
    | none => (true, s)
    | some t0 =>
      if LCNB_TIMEOUT_MS < sub32 now t0 then
        (true, { s with pendingSuperLong := alErase idx s.pendingSuperLong })
      else (false, s)
  | _ => (true, s)

/-- `Deserializer::DispatchResult`. -/
structure DispatchResult where
  stateChanged : Bool
  networkClickHandled : Bool
  deriving Repr, DecidableEq

/-- `Clickables::clickableExists` (id → index map membership). -/
def clickableExists (s : SysState) (id : Nat) : Bool :=
  s.clickables.any (fun c => decide (c.id = id))

/-- `Clickables::getIndex`: registry index of the clickable with this id
(ids are unique, indices are assigned in insertion order). -/
def clickableIndexOf (s : SysState) (id : Nat) : Option Nat :=
  s.clickables.findIdx? (fun c => decide (c.id = id))

/-- The protocol click-type decoding switch of
`Deserializer::processNetworkClickResponse` (0 and other values invalid). -/
def decodeClickType : Nat → Option ClickType
  | 1 => some ClickType.LONG
  | 2 => some ClickType.SUPER_LONG
  | _ => none

/-- The NETWORK_CLICK_ACK case of `Deserializer::processNetworkClickResponse`:
validation by convention (missing id = 0 fails `clickableExists`, invalid
type rejected), then `confirm` only if the pending click has not expired. -/
def processNetworkClickAck (now jsonClickType clickableId : Nat) (s : SysState) :
    SysState × DispatchResult :=
  if clickableExists s clickableId then
    match decodeClickType jsonClickType with
    | none => (s, ⟨false, false⟩)
    | some ty =>
      match clickableIndexOf s clickableId with
      | none => (s, ⟨false, false⟩)
      | some idx =>
        let expired := isNetworkClickExpired now idx ty s
        if expired.1 then (expired.2, ⟨false, false⟩)
        else
          let conf := confirm idx ty expired.2
          (conf.1, ⟨conf.2, conf.2⟩)
  else (s, ⟨false, false⟩)

/-- The LONG_CLICK dispatch of `LSH::loop` (lsh_core.cpp): with network long
click enabled and the link connected, `NetworkClicks::request` runs in the
same iteration and no local long click is performed; otherwise the local
long click runs (immediately, or as the configured fallback when offline).
Returns the new state and the contributions to `mustSendState` and
`mustCheckNetworkClicks`. -/
def loopDispatchLongClick (connected : Bool) (cl : ClickCfg) (now : Nat) (s : SysState) :
    SysState × Bool × Bool :=
  if cl.isNetworkClickable ClickType.LONG then
    if connected then
      (request now cl.index ClickType.LONG s, false, true)
    else if cl.getNetworkFallback ClickType.LONG = NoNetworkClickType.LOCAL_FALLBACK then
      let r := cl.longClick now s.actuators
      ({ s with actuators := r.1 }, r.2, false)
    else (s, false, false)
  else
    let r := cl.longClick now s.actuators
    ({ s with actuators := r.1 }, r.2, false)

theorem alInsert_lookup_self (k v : Nat) :
    ∀ m : List (Nat × Nat), (alInsert k v m).lookup k = some v := by
  intro m
  induction m with
  | nil => simp [alInsert, List.lookup]
  | cons p rest ih =>
    obtain ⟨p1, p2⟩ := p
    by_cases h : p1 = k
    · simp [alInsert, h, List.lookup]
    · have hbeq : (k == p1) = false := by
        simpa using fun he => h he.symm
      simpa [alInsert, h, List.lookup, hbeq] using ih

theorem alErase_lookup_self (k : Nat) :
    ∀ m : List (Nat × Nat), (alErase k m).lookup k = none := by
  intro m
  induction m with
  | nil => rfl
  | cons p rest ih =>
    obtain ⟨p1, p2⟩ := p
    by_cases h : p1 = k
    · simpa [alErase, List.filter_cons, h] using ih
    · have hbeq : (k == p1) = false := by
        simpa using fun he => h he.symm
      simpa [alErase, List.filter_cons, h, List.lookup, hbeq] using ih

theorem alErase_lookup_ne (k k' : Nat) (hne : k' ≠ k) :
    ∀ m : List (Nat × Nat), (alErase k m).lookup k' = m.lookup k' := by
  intro m
  induction m with
  | nil => rfl
  | cons p rest ih =>
    obtain ⟨p1, p2⟩ := p
    by_cases h : p1 = k
    · subst h
      have hbeq : (k' == p1) = false := by simpa using hne
      simpa [alErase, List.filter_cons, List.lookup, hbeq] using ih
    · by_cases h' : k' = p1
      · subst h'
        simp [alErase, List.filter_cons, h, List.lookup]
      · have hbeq : (k' == p1) = false := by simpa using h'
        simpa [alErase, List.filter_cons, h, List.lookup, hbeq] using ih

/-- Selector for the pending map of a click kind (specification side). -/
def pendingOf (s : SysState) : ClickType → List (Nat × Nat)
  | ClickType.LONG => s.pendingLong
  | ClickType.SUPER_LONG => s.pendingSuperLong
  | _ => []

/-- **C8.** `is_expired(idx, kind)` for a valid kind: with no pending entry it
returns true and leaves the state alone; with an entry strictly older than
`TIMEOUT_MS` it removes exactly that entry from that map (other keys, the
other map, actuators, emissions untouched) and returns true; otherwise it
returns false and the state is unchanged. -/
theorem isExpired_spec (now idx : Nat) (ty : ClickType) (s : SysState)
    (hty : ty = ClickType.LONG ∨ ty = ClickType.SUPER_LONG) :
    ((pendingOf s ty).lookup idx = none → isNetworkClickExpired now idx ty s = (true, s))
    ∧ (∀ t0, (pendingOf s ty).lookup idx = some t0 → LCNB_TIMEOUT_MS < sub32 now t0 →
        (isNetworkClickExpired now idx ty s).1 = true
        ∧ (pendingOf (isNetworkClickExpired now idx ty s).2 ty).lookup idx = none
        ∧ (∀ k, k ≠ idx →
            (pendingOf (isNetworkClickExpired now idx ty s).2 ty).lookup k
              = (pendingOf s ty).lookup k)
        ∧ (isNetworkClickExpired now idx ty s).2.actuators = s.actuators
        ∧ (isNetworkClickExpired now idx ty s).2.emitted = s.emitted)
    ∧ (∀ t0, (pendingOf s ty).lookup idx = some t0 → sub32 now t0 ≤ LCNB_TIMEOUT_MS →
        isNetworkClickExpired now idx ty s = (false, s)) := by
  rcases hty with h | h <;> subst h
  · refine ⟨fun hn => ?_, fun t0 hl hexp => ?_, fun t0 hl hfresh => ?_⟩
    · simp only [pendingOf] at hn
      simp [isNetworkClickExpired, hn]
    · simp only [pendingOf] at hl
      have hstep : isNetworkClickExpired now idx ClickType.LONG s
          = (true, { s with pendingLong := alErase idx s.pendingLong }) := by
        simp [isNetworkClickExpired, hl, hexp]
      rw [hstep]
      exact ⟨rfl, alErase_lookup_self idx s.pendingLong,
        fun k hk => alErase_lookup_ne idx k hk s.pendingLong, rfl, rfl⟩
    · simp only [pendingOf] at hl
      simp [isNetworkClickExpired, hl, Nat.not_lt.mpr hfresh]
  · refine ⟨fun hn => ?_, fun t0 hl hexp => ?_, fun t0 hl hfresh => ?_⟩
    · simp only [pendingOf] at hn
      simp [isNetworkClickExpired, hn]
    · simp only [pendingOf] at hl
      have hstep : isNetworkClickExpired now idx ClickType.SUPER_LONG s
          = (true, { s with pendingSuperLong := alErase idx s.pendingSuperLong }) := by
        simp [isNetworkClickExpired, hl, hexp]
      rw [hstep]
      exact ⟨rfl, alErase_lookup_self idx s.pendingSuperLong,
        fun k hk => alErase_lookup_ne idx k hk s.pendingSuperLong, rfl, rfl⟩
    · simp only [pendingOf] at hl
      simp [isNetworkClickExpired, hl, Nat.not_lt.mpr hfresh]

/-- `serializeNetworkClick` only appends to `emitted`; every other component
of the state is untouched. -/
theorem serializeNetworkClick_fields (idx : Nat) (ty : ClickType) (cf : Bool) (s : SysState) :
    (serializeNetworkClick idx ty cf s).clickables = s.clickables
    ∧ (serializeNetworkClick idx ty cf s).actuators = s.actuators
    ∧ (serializeNetworkClick idx ty cf s).pendingLong = s.pendingLong
    ∧ (serializeNetworkClick idx ty cf s).pendingSuperLong = s.pendingSuperLong := by
  rcases hp : protocolTypeOf ty with _ | t
  · simp [serializeNetworkClick, hp]
  · rcases hc : s.clickables[idx]? with _ | cl <;>
      simp [serializeNetworkClick, hp, hc]

/-- **C3.** (a) A LONG_CLICK on a clickable with network long click enabled
while the link is connected makes the loop iteration emit a NETWORK_CLICK
record `{p:3, t:1, i:id, c:0}`, record the pending entry at the request
time, change no actuator, and contribute `(mustSendState, mustCheckNet) =
(false, true)`.  (b) A NETWORK_CLICK_ACK arriving while the entry is pending
and not expired emits `{p:3, t:1, i:id, c:1}`, removes the pending entry,
and changes no actuator. -/
theorem network_click_lifecycle :
    (∀ (cl : ClickCfg) (now : Nat) (s : SysState),
      cl.isNetworkClickable ClickType.LONG = true →
      s.clickables[cl.index]? = some cl →
      (loopDispatchLongClick true cl now s).1.emitted
          = s.emitted ++ [WireOut.networkClick 1 cl.id 0]
      ∧ (loopDispatchLongClick true cl now s).1.pendingLong.lookup cl.index = some now
      ∧ (loopDispatchLongClick true cl now s).1.actuators = s.actuators
      ∧ (loopDispatchLongClick true cl now s).2 = (false, true))
    ∧ (∀ (i idx now t0 : Nat) (cl : ClickCfg) (s : SysState),
      clickableExists s i = true →
      clickableIndexOf s i = some idx →
      s.clickables[idx]? = some cl →
      s.pendingLong.lookup idx = some t0 →
      sub32 now t0 ≤ LCNB_TIMEOUT_MS →
      (processNetworkClickAck now 1 i s).1.emitted
          = s.emitted ++ [WireOut.networkClick 1 cl.id 1]
      ∧ (processNetworkClickAck now 1 i s).1.pendingLong.lookup idx = none
      ∧ (processNetworkClickAck now 1 i s).1.actuators = s.actuators) := by
  constructor
  · intro cl now s hnet hreg
    have hstate : loopDispatchLongClick true cl now s
        = ({ s with
             emitted := s.emitted ++ [WireOut.networkClick 1 cl.id 0],
             pendingLong := alInsert cl.index now s.pendingLong }, false, true) := by
      simp [loopDispatchLongClick, hnet, request, serializeNetworkClick, protocolTypeOf,
        hreg, storeNetworkClickTime]
    rw [hstate]
    exact ⟨rfl, alInsert_lookup_self cl.index now s.pendingLong, rfl, rfl⟩
  · intro i idx now t0 cl s hex hidx hreg hpend hfresh
    have hexp : isNetworkClickExpired now idx ClickType.LONG s = (false, s) := by
      simp [isNetworkClickExpired, hpend, Nat.not_lt.mpr hfresh]
    have hstate : processNetworkClickAck now 1 i s
        = ({ s with
             emitted := s.emitted ++ [WireOut.networkClick 1 cl.id 1],
             pendingLong := alErase idx s.pendingLong },
           ⟨thereAreActiveNetworkCLicks
              { s with
                emitted := s.emitted ++ [WireOut.networkClick 1 cl.id 1],
                pendingLong := alErase idx s.pendingLong },
            thereAreActiveNetworkCLicks
              { s with
                emitted := s.emitted ++ [WireOut.networkClick 1 cl.id 1],
                pendingLong := alErase idx s.pendingLong }⟩) := by
      simp [processNetworkClickAck, hex, decodeClickType, hidx, hexp, confirm,
        serializeNetworkClick, protocolTypeOf, hreg, eraseNetworkClick]
    rw [hstate]
    exact ⟨rfl, alErase_lookup_self idx s.pendingLong, rfl⟩

/-- A network-long-clickable (id 7, registry index 0) with local fallback. -/
def netClickable : ClickCfg :=
  { id := 7, index := 0, isShortClickable := false, isLongClickable := true,
    isSuperLongClickable := false, isNetworkLongClickable := true,
    isNetworkSuperLongClickable := false, longClickType := LongClickType.NORMAL,
    longClickFallback := NoNetworkClickType.LOCAL_FALLBACK,
    superLongClickType := SuperLongClickType.NONE,
    superLongClickFallback := NoNetworkClickType.NONE,
    actuatorsShort := [], actuatorsLong := [0], actuatorsSuperLong := [] }

/-- A one-clickable, one-actuator device with no pending network clicks. -/
def sIdle : SysState :=
  { clickables := [netClickable], actuators := [actOnAt0],
    pendingLong := [], pendingSuperLong := [], emitted := [] }

/-- `sIdle` after a network long-click request at time 100. -/
def sRequested : SysState :=
  { clickables := [netClickable], actuators := [actOnAt0],
    pendingLong := [(0, 100)], pendingSuperLong := [],
    emitted := [WireOut.networkClick 1 7 0] }

/-- Witness for `network_click_lifecycle`: the request at time 100 emits
`{p:3,t:1,i:7,c:0}` and records the entry; the ACK at time 500 (within the
1000 ms timeout) emits `{p:3,t:1,i:7,c:1}` and clears it; the actuator
registry is untouched by both. -/
theorem network_click_lifecycle_witness :
    ((loopDispatchLongClick true netClickable 100 sIdle).1.emitted
        = sIdle.emitted ++ [WireOut.networkClick 1 7 0]
      ∧ (loopDispatchLongClick true netClickable 100 sIdle).1.pendingLong.lookup 0 = some 100
      ∧ (loopDispatchLongClick true netClickable 100 sIdle).1.actuators = sIdle.actuators
      ∧ (loopDispatchLongClick true netClickable 100 sIdle).2 = (false, true))
    ∧ ((processNetworkClickAck 500 1 7 sRequested).1.emitted
        = sRequested.emitted ++ [WireOut.networkClick 1 7 1]
      ∧ (processNetworkClickAck 500 1 7 sRequested).1.pendingLong.lookup 0 = none
      ∧ (processNetworkClickAck 500 1 7 sRequested).1.actuators = sRequested.actuators) :=
  ⟨network_click_lifecycle.1 netClickable 100 sIdle (by decide) (by decide),
   network_click_lifecycle.2 7 0 500 100 netClickable sRequested
     (by decide) (by decide) (by decide) (by decide) (by decide)⟩

/-- **C9.** Processing a NETWORK_CLICK_ACK for a pending, un-expired entry of
a valid kind changes no actuator, and both result flags equal the return
value of `confirm`: they are `true` exactly when at least one network-click
entry remains pending in either map of the final state.  In particular the
ACK clearing the last pending entry reports both flags `false`, and an ACK
with other entries still pending reports `state_changed = true` although no
actuator state changed. -/
theorem ack_result_flags (tc i idx now t0 : Nat) (ty : ClickType) (s : SysState)
    (hdec : decodeClickType tc = some ty)
    (hex : clickableExists s i = true)
    (hidx : clickableIndexOf s i = some idx)
    (hpend : (pendingOf s ty).lookup idx = some t0)
    (hfresh : sub32 now t0 ≤ LCNB_TIMEOUT_MS) :
    (processNetworkClickAck now tc i s).1.actuators = s.actuators
    ∧ (processNetworkClickAck now tc i s).2
        = ⟨thereAreActiveNetworkCLicks (processNetworkClickAck now tc i s).1,
           thereAreActiveNetworkCLicks (processNetworkClickAck now tc i s).1⟩ := by
  have hser := serializeNetworkClick_fields idx ty true s
  have hty : ty = ClickType.LONG ∨ ty = ClickType.SUPER_LONG := by
    rcases tc with _ | tc1
    · exact absurd hdec (by simp [decodeClickType])
    rcases tc1 with _ | tc2
    · exact Or.inl (by simpa [decodeClickType] using hdec.symm)
    rcases tc2 with _ | tc3
    · exact Or.inr (by simpa [decodeClickType] using hdec.symm)
    · exact absurd hdec (by simp [decodeClickType])
  rcases hty with h | h <;> subst h
  · simp only [pendingOf] at hpend
    have hexp : isNetworkClickExpired now idx ClickType.LONG s = (false, s) := by
      simp [isNetworkClickExpired, hpend, Nat.not_lt.mpr hfresh]
    have hstate : processNetworkClickAck now tc i s
        = ((confirm idx ClickType.LONG s).1,
           ⟨(confirm idx ClickType.LONG s).2, (confirm idx ClickType.LONG s).2⟩) := by
      simp [processNetworkClickAck, hex, hdec, hidx, hexp]
    rw [hstate]
    refine ⟨?_, rfl⟩
    show (eraseNetworkClick idx ClickType.LONG
        (serializeNetworkClick idx ClickType.LONG true s)).actuators = s.actuators
    simp [eraseNetworkClick, hser.2.1]
  · simp only [pendingOf] at hpend
    have hexp : isNetworkClickExpired now idx ClickType.SUPER_LONG s = (false, s) := by
      simp [isNetworkClickExpired, hpend, Nat.not_lt.mpr hfresh]
    have hstate : processNetworkClickAck now tc i s
        = ((confirm idx ClickType.SUPER_LONG s).1,
           ⟨(confirm idx ClickType.SUPER_LONG s).2, (confirm idx ClickType.SUPER_LONG s).2⟩) := by
      simp [processNetworkClickAck, hex, hdec, hidx, hexp]
    rw [hstate]
    have hser' := serializeNetworkClick_fields idx ClickType.SUPER_LONG true s
    refine ⟨?_, rfl⟩
    show (eraseNetworkClick idx ClickType.SUPER_LONG
        (serializeNetworkClick idx ClickType.SUPER_LONG true s)).actuators = s.actuators
    simp [eraseNetworkClick, hser'.2.1]

/-- `sRequested` with a second pending network click (of the super-long map). -/
def sRequestedTwo : SysState :=
  { sRequested with pendingSuperLong := [(3, 150)] }

/-- Witness for `ack_result_flags`: with only one entry pending, the ACK that
clears it reports `⟨false, false⟩`; with another entry still pending in the
super-long map, the same ACK reports `⟨true, true⟩` although the actuators
are untouched in both runs. -/
theorem ack_result_flags_witness :
    ((processNetworkClickAck 500 1 7 sRequested).1.actuators = sRequested.actuators
      ∧ (processNetworkClickAck 500 1 7 sRequested).2
          = ⟨thereAreActiveNetworkCLicks (processNetworkClickAck 500 1 7 sRequested).1,
             thereAreActiveNetworkCLicks (processNetworkClickAck 500 1 7 sRequested).1⟩)
    ∧ (processNetworkClickAck 500 1 7 sRequested).2 = ⟨false, false⟩
    ∧ ((processNetworkClickAck 500 1 7 sRequestedTwo).2 = ⟨true, true⟩
      ∧ (processNetworkClickAck 500 1 7 sRequestedTwo).1.actuators = sRequestedTwo.actuators) :=
  ⟨ack_result_flags 1 7 0 500 100 ClickType.LONG sRequested
      (by decide) (by decide) (by decide) (by decide) (by decide),
   by decide,
   ⟨by decide,
    (ack_result_flags 1 7 0 500 100 ClickType.LONG sRequestedTwo
      (by decide) (by decide) (by decide) (by decide) (by decide)).1⟩⟩

/-- Witness for `isExpired_spec`: the entry stored at 100 is expired at
1200 (1100 ms > 1000 ms timeout): the check returns true and removes it. -/
theorem isExpired_spec_witness :
    (isNetworkClickExpired 1200 0 ClickType.LONG sRequested).1 = true
    ∧ (pendingOf (isNetworkClickExpired 1200 0 ClickType.LONG sRequested).2
        ClickType.LONG).lookup 0 = none :=
  let h := (isExpired_spec 1200 0 ClickType.LONG sRequested (Or.inl rfl)).2.1 100
    (by decide) (by decide)
  ⟨h.1, h.2.1⟩

/-! ## Inbound dispatch (`communication/deserializer.cpp`,
`deserializeAndDispatch`) -/

/-- A decoded inbound record, as read from the JSON document: the commands
relevant to the state-mutating dispatch paths (the read-only commands emit
replies and set no flags). -/
inductive InboundRecord : Type
  | setState (states : List Nat)
  | networkClickAck (jsonClickType clickableId : Nat)
  | ping
  | unknown
  deriving Repr, DecidableEq

/-- The SET_STATE apply loop
(`for i < totalActuators: actuators[i]->setState(statesArray[i] == 1)`),
run after the length guard, so both lists have equal length. -/
def applyStatesLoop (now : Nat) : List Actuator → List Nat → List Actuator × Bool
  | [], _ => ([], false)
  | a :: rest, sv :: svs =>
    let r := a.setState now (sv = 1)
    let rr := applyStatesLoop now rest svs
    (r.1 :: rr.1, r.2 || rr.2)
  | a :: rest, [] => (a :: rest, false)

/-- `Deserializer::deserializeAndDispatch` for the modelled commands.
SET_STATE first requires the state vector length to equal the number of
registered actuators and otherwise rejects silently. -/
def deserializeAndDispatch (now : Nat) (rec : InboundRecord) (s : SysState) :
    SysState × DispatchResult :=
  match rec with
  | InboundRecord.setState states =>
    if states.length ≠ s.actuators.length then (s, ⟨false, false⟩)
    else
      let r := applyStatesLoop now s.actuators states
      ({ s with actuators := r.1 }, ⟨r.2, false⟩)
  | InboundRecord.networkClickAck tc i => processNetworkClickAck now tc i s
  | InboundRecord.ping => (s, ⟨false, false⟩)
  | InboundRecord.unknown => (s, ⟨false, false⟩)

/-- **C7.** An inbound SET_STATE whose state array length differs from the
number of registered actuators is rejected silently and atomically: the
whole state (actuators, pending maps, emissions) is returned unchanged and
the dispatch result is `{state_changed := false, net_handled := false}`. -/
theorem setState_wrong_length_rejected (now : Nat) (states : List Nat) (s : SysState)
    (hlen : states.length ≠ s.actuators.length) :
    deserializeAndDispatch now (InboundRecord.setState states) s = (s, ⟨false, false⟩)
    ∧ (deserializeAndDispatch now (InboundRecord.setState states) s).1.actuators = s.actuators
    ∧ (deserializeAndDispatch now (InboundRecord.setState states) s).1.emitted = s.emitted := by
  have h : deserializeAndDispatch now (InboundRecord.setState states) s = (s, ⟨false, false⟩) := by
    simp [deserializeAndDispatch, hlen]
  exact ⟨h, by rw [h], by rw [h]⟩

/-- Witness for `setState_wrong_length_rejected`: a 2-element vector against
a 1-actuator registry is dropped with both flags false. -/
theorem setState_wrong_length_rejected_witness :
    deserializeAndDispatch 100 (InboundRecord.setState [1, 0]) sIdle = (sIdle, ⟨false, false⟩) :=
  (setState_wrong_length_rejected 100 [1, 0] sIdle (by decide)).1

/-! ## Capacity-array iteration (`serializer.cpp`, `actuator_manager.cpp`)

`serializeDetails`, `serializeActuatorsState` and `Actuators::finalizeSetup`
range-for over the FULL fixed-capacity `etl::array` (CONFIG_MAX_ACTUATORS /
CONFIG_MAX_CLICKABLES slots), dereferencing the pointer stored in every slot
— not only the first `totalActuators` / `totalClickables` registered ones.
A slot never written by `add*` holds a null pointer; dereferencing it is
undefined, modelled as `none`. -/

/-- The `s` array of `Serializer::serializeActuatorsState`:
`(uint8_t)actuator->getState()` for every capacity slot. -/
def serializeActuatorsStateSlots : List (Option Actuator) → Option (List Nat)
  | [] => some []
  | none :: _ => none
  | some a :: rest =>
    (serializeActuatorsStateSlots rest).map (fun l => (if a.actualState then 1 else 0) :: l)

/-- The `a` array of `Serializer::serializeDetails`: `actuator->getId()` for
every capacity slot. -/
def actuatorIdsSlots : List (Option Actuator) → Option (List Nat)
  | [] => some []
  | none :: _ => none
  | some a :: rest => (actuatorIdsSlots rest).map (fun l => a.id :: l)

/-- The `b` array of `Serializer::serializeDetails`: `clickable->getId()` for
every capacity slot. -/
def clickableIdsSlots : List (Option ClickCfg) → Option (List Nat)
  | [] => some []
  | none :: _ => none
  | some c :: rest => (clickableIdsSlots rest).map (fun l => c.id :: l)

/-- `Serializer::serializeDetails`: emits both id arrays. -/
def serializeDetailsSlots (aslots : List (Option Actuator)) (cslots : List (Option ClickCfg)) :
    Option (List Nat × List Nat) :=
  match actuatorIdsSlots aslots, clickableIdsSlots cslots with
  | some l1, some l2 => some (l1, l2)
  | _, _ => none

/-- The loop of `Actuators::finalizeSetup` that populates
`actuatorsWithAutoOffIndexes`: calls `hasAutoOff()` on every capacity slot,
collecting the indices with a timer. -/
def finalizeAutoOffSlots : List (Option Actuator) → Nat → Option (List Nat)
  | [], _ => some []
  | none :: _, _ => none
  | some a :: rest, i =>
    (finalizeAutoOffSlots rest (i + 1)).map (fun l => if a.hasAutoOffTimer then i :: l else l)

theorem serializeActuatorsStateSlots_spec :
    ∀ slots : List (Option Actuator),
      ((serializeActuatorsStateSlots slots).isSome ↔ ∀ o ∈ slots, o.isSome)
      ∧ ∀ l, serializeActuatorsStateSlots slots = some l → l.length = slots.length := by
  intro slots
  induction slots with
  | nil =>
    refine ⟨by simp [serializeActuatorsStateSlots], fun l h => ?_⟩
    simp [serializeActuatorsStateSlots] at h
    simp [h.symm]
  | cons o rest ih =>
    rcases o with _ | a
    · refine ⟨by simp [serializeActuatorsStateSlots], fun l h => ?_⟩
      simp [serializeActuatorsStateSlots] at h
    · constructor
      · simp only [serializeActuatorsStateSlots, Option.isSome_map', List.mem_cons]
        rw [ih.1]
        constructor
        · intro h o ho
          rcases ho with h' | h'
          · simp [h']
          · exact h o h'
        · intro h o ho
          exact h o (Or.inr ho)
      · intro l h
        simp only [serializeActuatorsStateSlots, Option.map_eq_some'] at h
        rcases h with ⟨l', hl', rfl⟩
        simp [ih.2 l' hl']

theorem actuatorIdsSlots_spec :
    ∀ slots : List (Option Actuator),
      ((actuatorIdsSlots slots).isSome ↔ ∀ o ∈ slots, o.isSome)
      ∧ ∀ l, actuatorIdsSlots slots = some l → l.length = slots.length := by
  intro slots
  induction slots with
  | nil =>
    refine ⟨by simp [actuatorIdsSlots], fun l h => ?_⟩
    simp [actuatorIdsSlots] at h
    simp [h.symm]
  | cons o rest ih =>
    rcases o with _ | a
    · refine ⟨by simp [actuatorIdsSlots], fun l h => ?_⟩
      simp [actuatorIdsSlots] at h
    · constructor
      · simp only [actuatorIdsSlots, Option.isSome_map', List.mem_cons]
        rw [ih.1]
        constructor
        · intro h o ho
          rcases ho with h' | h'
          · simp [h']
          · exact h o h'
        · intro h o ho
          exact h o (Or.inr ho)
      · intro l h
        simp only [actuatorIdsSlots, Option.map_eq_some'] at h
        rcases h with ⟨l', hl', rfl⟩
        simp [ih.2 l' hl']

theorem clickableIdsSlots_spec :
    ∀ slots : List (Option ClickCfg),
      ((clickableIdsSlots slots).isSome ↔ ∀ o ∈ slots, o.isSome)
      ∧ ∀ l, clickableIdsSlots slots = some l → l.length = slots.length := by
  intro slots
  induction slots with
  | nil =>
    refine ⟨by simp [clickableIdsSlots], fun l h => ?_⟩
    simp [clickableIdsSlots] at h
    simp [h.symm]
  | cons o rest ih =>
    rcases o with _ | a
    · refine ⟨by simp [clickableIdsSlots], fun l h => ?_⟩
      simp [clickableIdsSlots] at h
    · constructor
      · simp only [clickableIdsSlots, Option.isSome_map', List.mem_cons]
        rw [ih.1]
        constructor
        · intro h o ho
          rcases ho with h' | h'
          · simp [h']
          · exact h o h'
        · intro h o ho
          exact h o (Or.inr ho)
      · intro l h
        simp only [clickableIdsSlots, Option.map_eq_some'] at h
        rcases h with ⟨l', hl', rfl⟩
        simp [ih.2 l' hl']

theorem finalizeAutoOffSlots_isSome :
    ∀ (slots : List (Option Actuator)) (i : Nat),
      (finalizeAutoOffSlots slots i).isSome ↔ ∀ o ∈ slots, o.isSome := by
  intro slots
  induction slots with
  | nil => intro i; simp [finalizeAutoOffSlots]
  | cons o rest ih =>
    intro i
    rcases o with _ | a
    · simp [finalizeAutoOffSlots]
    · simp only [finalizeAutoOffSlots, Option.isSome_map', List.mem_cons]
      rw [ih (i + 1)]
      constructor
      · intro h o ho
        rcases ho with h' | h'
        · simp [h']
        · exact h o h'
      · intro h o ho
        exact h o (Or.inr ho)

/-- The slot array of a registry with `reg` registered entities and capacity
`cap`: the registered slots followed by never-written (null) slots. -/
theorem slots_all_isSome {α : Type} (reg : List α) (cap : Nat) (h : reg.length ≤ cap) :
    ((∀ o ∈ reg.map some ++ List.replicate (cap - reg.length) (none : Option α), o.isSome)
      ↔ reg.length = cap) := by
  constructor
  · intro hall
    by_contra hne
    have hpos : 0 < cap - reg.length := by omega
    have hmem : (none : Option α)
        ∈ reg.map some ++ List.replicate (cap - reg.length) (none : Option α) :=
      List.mem_append.mpr (Or.inr (List.mem_replicate.mpr ⟨by omega, rfl⟩))
    simpa using hall none hmem
  · intro he o ho
    have hz : cap - reg.length = 0 := by omega
    rw [hz, List.replicate_zero, List.append_nil] at ho
    rcases List.mem_map.mp ho with ⟨x, _, rfl⟩
    rfl

theorem slots_length {α : Type} (reg : List α) (cap : Nat) (h : reg.length ≤ cap) :
    (reg.map some ++ List.replicate (cap - reg.length) (none : Option α)).length = cap := by
  simp [List.length_append, List.length_map, List.length_replicate]
  omega

/-- **C10.** For a registry with `regA`/`regC` registered actuators and
clickables and capacities `capA`/`capC` (unwritten slots null):
`serializeActuatorsState`, the two id arrays of `serializeDetails`, and the
auto-off scan of `Actuators::finalizeSetup` iterate every capacity slot, so
they are well-defined exactly when the number of registered entities equals
the capacity, and the emitted `s`, `a` and `b` arrays then hold exactly
capacity-many elements. -/
theorem capacity_iteration_spec (regA : List Actuator) (regC : List ClickCfg)
    (capA capC : Nat) (hA : regA.length ≤ capA) (hC : regC.length ≤ capC) :
    ((serializeActuatorsStateSlots
        (regA.map some ++ List.replicate (capA - regA.length) none)).isSome
      ↔ regA.length = capA)
    ∧ (∀ l, serializeActuatorsStateSlots
        (regA.map some ++ List.replicate (capA - regA.length) none) = some l →
        l.length = capA)
    ∧ ((actuatorIdsSlots
        (regA.map some ++ List.replicate (capA - regA.length) none)).isSome
      ↔ regA.length = capA)
    ∧ (∀ l, actuatorIdsSlots
        (regA.map some ++ List.replicate (capA - regA.length) none) = some l →
        l.length = capA)
    ∧ ((clickableIdsSlots
        (regC.map some ++ List.replicate (capC - regC.length) none)).isSome
      ↔ regC.length = capC)
    ∧ (∀ l, clickableIdsSlots
        (regC.map some ++ List.replicate (capC - regC.length) none) = some l →
        l.length = capC)
    ∧ ((finalizeAutoOffSlots
        (regA.map some ++ List.replicate (capA - regA.length) none) 0).isSome
      ↔ regA.length = capA) := by
  have hlenA := slots_length regA capA hA
  have hlenC := slots_length regC capC hC
  have hallA := slots_all_isSome regA capA hA
  have hallC := slots_all_isSome regC capC hC
  refine ⟨?_, ?_, ?_, ?_, ?_, ?_, ?_⟩
  · rw [(serializeActuatorsStateSlots_spec _).1]; exact hallA
  · intro l h
    rw [(serializeActuatorsStateSlots_spec _).2 l h]; exact hlenA
  · rw [(actuatorIdsSlots_spec _).1]; exact hallA
  · intro l h
    rw [(actuatorIdsSlots_spec _).2 l h]; exact hlenA
  · rw [(clickableIdsSlots_spec _).1]; exact hallC
  · intro l h
    rw [(clickableIdsSlots_spec _).2 l h]; exact hlenC
  · rw [finalizeAutoOffSlots_isSome _ 0]; exact hallA

/-- Witness for `capacity_iteration_spec`: a device with one registered
actuator at capacity 1 (full) and one registered clickable at capacity 2
(one null slot left): the actuator serializations are defined with exactly
one element, the clickable id array is undefined. -/
theorem capacity_iteration_spec_witness :
    ((serializeActuatorsStateSlots
        ([actOnAt0].map some ++ List.replicate (1 - [actOnAt0].length) none)).isSome
      ↔ [actOnAt0].length = 1)
    ∧ ((clickableIdsSlots
        ([netClickable].map some ++ List.replicate (2 - [netClickable].length) none)).isSome
      ↔ [netClickable].length = 2) :=
  ⟨(capacity_iteration_spec [actOnAt0] [netClickable] 1 2 (by decide) (by decide)).1,
   (capacity_iteration_spec [actOnAt0] [netClickable] 1 2
      (by decide) (by decide)).2.2.2.2.1⟩

end LshCore
